import Mathlib

/-!
Verification of the movie.js compositing engine against its specification.

The definitions below are a shallow embedding of the JavaScript sources:

* src/src/movie.js   — Movie (timeline engine): _render / _renderLayers tick,
  pause, record, the duration getter;
* layer module       — Base layer: startTime, duration, active flag;
* src/src/effect.js  — Stack.apply, Transform.Matrix (cell, multiply),
  Transform.apply (modelled as a trace of 2-D canvas operations),
  GaussianBlur.genPascalRow and GaussianBlur.gen1DKernel.

JavaScript numbers are modelled as rationals, thrown strings as a small
error type, and the canvas / recorder environment as abstract identifiers.
-/

namespace Vidar

/-- Error conditions thrown by the source (thrown strings in JS). -/
inductive JsError where
  /-- Message: Invalid index (with the offending index), from genPascalRow. -/
  | invalidIndex (index : ℤ)
  /-- Message: Cannot record movie while playing or recording, from Movie.record. -/
  | cannotRecord
deriving DecidableEq, Repr

/-- Notifications published to a layer by the movie engine. -/
inductive Notif where
  | start
  | stop
deriving DecidableEq, BEq, Repr

/-- Layer state relevant to activation (layer module, class Base):
startTime, duration and the private active flag. -/
structure Layer where
  startTime : ℚ
  duration : ℚ
  active : Bool
deriving DecidableEq, Repr

/-- The test guarding the continue-branch of Movie._renderLayers:
currentTime < layer.startTime or currentTime > layer.startTime + layer.duration. -/
def outsideInterval (l : Layer) (t : ℚ) : Bool :=
  decide (t < l.startTime) || decide (l.startTime + l.duration < t)

/-- One non-instant visit of Movie._renderLayers to a single layer
(renderingFrame = false): outside the interval an active layer gets a stop
notification and is deactivated; inside it an inactive layer gets a start
notification and is activated; otherwise the flag is untouched. -/
def renderLayerTick (t : ℚ) (l : Layer) : Layer × List Notif :=
  if outsideInterval l t then
    if l.active then ({ l with active := false }, [Notif.stop]) else (l, [])
  else
    if l.active then (l, []) else ({ l with active := true }, [Notif.start])

/-- Movie state (src/src/movie.js): layers, playback flags, clock.
The output surface and the recorder are abstracted to the two booleans
usingCaptureSurface and recorderAttached (the recording getter is
the latter). -/
structure Movie where
  layers : List Layer
  paused : Bool
  ended : Bool
  repeatFlag : Bool
  recorderAttached : Bool
  usingCaptureSurface : Bool
  currentTime : ℚ
deriving DecidableEq, Repr

/-- Movie duration getter: layers.reduce((end, layer) =>
Math.max(layer.startTime + layer.duration, end), 0). -/
def Movie.duration (m : Movie) : ℚ :=
  m.layers.foldl (fun e l => max (l.startTime + l.duration) e) 0

/-- Movie.addLayer: pushes the layer onto the layer list. -/
def Movie.addLayer (m : Movie) (l : Layer) : Movie :=
  { m with layers := m.layers ++ [l] }

/-- Movie.pause: sets the paused flag, then publishes a stop notification to
every layer of the list and clears its active flag, unconditionally.
Returns the new state and the per-layer notifications. -/
def Movie.pause (m : Movie) : Movie × List (List Notif) :=
  ({ m with
      paused := true
      layers := m.layers.map (fun l => { l with active := false }) },
   m.layers.map (fun _ => [Notif.stop]))

/-- One non-instant pass of Movie._render at movie-clock value t
(renderingFrame = false; the wall-clock computation of _updateCurrentTime is
abstracted into the argument t).  If the movie is paused the loop exits with
no activity.  If t has reached the duration, the ended branch runs: the clock
resets to zero and, unless repeating without a recorder, every layer receives
a stop notification and is deactivated unconditionally.  Otherwise
_renderLayers visits every layer.  Returns the new state and the
notifications delivered to each layer, in layer-list order. -/
def Movie.tick (m : Movie) (t : ℚ) : Movie × List (List Notif) :=
  if m.paused then (m, m.layers.map (fun _ => []))
  else
    if Movie.duration m ≤ t then
      if !m.repeatFlag || m.recorderAttached then
        ({ m with
            currentTime := 0
            ended := true
            layers := m.layers.map (fun l => { l with active := false }) },
         m.layers.map (fun _ => [Notif.stop]))
      else
        ({ m with currentTime := 0 }, m.layers.map (fun _ => []))
    else
      ({ m with
          currentTime := t
          layers := m.layers.map (fun l => (renderLayerTick t l).1) },
       m.layers.map (fun l => (renderLayerTick t l).2))

/-- Movie.record: throws before touching any state when the movie is not
paused; otherwise clears the paused and ended flags, swaps the output surface
for a capture surface, attaches a recorder and starts playback.  The first
component is the movie state after the call (unchanged when the exception is
thrown, since the guard precedes every mutation in the source). -/
def Movie.record (m : Movie) : Movie × Except JsError Unit :=
  if !m.paused then (m, Except.error JsError.cannotRecord)
  else
    ({ m with
        paused := false
        ended := false
        usingCaptureSurface := true
        recorderAttached := true },
     Except.ok ())

/-- Accumulator step for counting notifications a single layer receives over
a sequence of non-instant render ticks: state is (layer, starts, stops). -/
def traverseStep (acc : Layer × ℕ × ℕ) (t : ℚ) : Layer × ℕ × ℕ :=
  ((renderLayerTick t acc.1).1,
   acc.2.1 + (renderLayerTick t acc.1).2.count Notif.start,
   acc.2.2 + (renderLayerTick t acc.1).2.count Notif.stop)

/-- Runs a layer through a sequence of non-instant render ticks, returning
the final layer state and how many start and stop notifications fired. -/
def traverse (l : Layer) (ts : List ℚ) : Layer × ℕ × ℕ :=
  ts.foldl traverseStep (l, 0, 0)

/-! ### Transform.Matrix (src/src/effect.js) -/

/-- A 3x3 matrix stored like Transform.Matrix: a flat data array addressed
row-major, cell (x, y) = data[3*y + x]. -/
structure Matrix3 where
  data : List ℚ
deriving DecidableEq, Repr

/-- Transform.Matrix.cell getter: data[3*y + x] (x is the column, y the row). -/
def Matrix3.cell (m : Matrix3) (x y : ℕ) : ℚ :=
  m.data.getD (3 * y + x) 0

/-- The entry the multiply loop writes into the scratch matrix at cell (x, y):
sum over i of this.cell(x, i) * other.cell(i, y). -/
def Matrix3.mulCell (a b : Matrix3) (x y : ℕ) : ℚ :=
  a.cell x 0 * b.cell 0 y + a.cell x 1 * b.cell 1 y + a.cell x 2 * b.cell 2 y

/-- Transform.Matrix.multiply: every cell (x, y) of the scratch matrix is
filled with mulCell, then the scratch data is copied back into this.  The
data list is written out in storage order data[3*y + x]. -/
def Matrix3.multiply (a b : Matrix3) : Matrix3 :=
  ⟨[a.mulCell b 0 0, a.mulCell b 1 0, a.mulCell b 2 0,
    a.mulCell b 0 1, a.mulCell b 1 1, a.mulCell b 2 1,
    a.mulCell b 0 2, a.mulCell b 1 2, a.mulCell b 2 2]⟩

/-- The matrix product the specification describes for multiply: under the
convention data[3*row + col], the entry at row r, column c of this times
other is the sum over i of this[r][i] * other[i][c], computed from pre-call
values.  (this[r][i] = this.cell i r and other[i][c] = other.cell c i.) -/
def Matrix3.specMulCell (a b : Matrix3) (r c : ℕ) : ℚ :=
  a.cell 0 r * b.cell c 0 + a.cell 1 r * b.cell c 1 + a.cell 2 r * b.cell c 2

/-- The row-major product this times other, as the specification words it,
laid out in storage order data[3*r + c]. -/
def Matrix3.specMultiply (a b : Matrix3) : Matrix3 :=
  ⟨[a.specMulCell b 0 0, a.specMulCell b 0 1, a.specMulCell b 0 2,
    a.specMulCell b 1 0, a.specMulCell b 1 1, a.specMulCell b 1 2,
    a.specMulCell b 2 0, a.specMulCell b 2 1, a.specMulCell b 2 2]⟩

/-! ### Transform.apply (src/src/effect.js) modelled as a canvas-op trace -/

/-- An affine transform of a 2-D canvas context, in the six-argument order
(a, b, c, d, e, f) of setTransform. -/
structure Transform2D where
  a : ℚ
  b : ℚ
  c : ℚ
  d : ℚ
  e : ℚ
  f : ℚ
deriving DecidableEq, Repr

/-- The identity transform of a 2-D canvas context. -/
def identityTransform : Transform2D := ⟨1, 0, 0, 1, 0, 0⟩

/-- The host setTransform consumes exactly six positional arguments; a call
site passing more arguments has the extras discarded (JavaScript semantics). -/
def setTransformOf (args : List ℚ) : Transform2D :=
  ⟨args.getD 0 0, args.getD 1 0, args.getD 2 0,
   args.getD 3 0, args.getD 4 0, args.getD 5 0⟩

/-- Operations Transform.apply performs on a 2-D context.  Surfaces are
identified by numbers: 0 is the target canvas, 1 the scratch canvas. -/
inductive CanvasOp where
  | setTransform (t : Transform2D)
  | drawImage (src : ℕ)
  | clearRect
deriving DecidableEq, Repr

/-- The canvas getters a..f of Transform.Matrix:
a = data[0], b = data[3], c = data[1], d = data[4], e = data[2], f = data[5]. -/
def matrixToTransform (data : List ℚ) : Transform2D :=
  ⟨data.getD 0 0, data.getD 3 0, data.getD 1 0,
   data.getD 4 0, data.getD 2 0, data.getD 5 0⟩

/-- Transform.apply as the pair of operation traces it issues, given the
resolved matrix data: on the scratch context it sets the matrix as the
active transform, draws the target, and then calls
setTransform(1, 0, 0, 0, 1, 0, 0, 0, 1) with nine arguments; on the target
context it clears and then draws the scratch canvas back. -/
def transformApplyOps (data : List ℚ) : List CanvasOp × List CanvasOp :=
  ([CanvasOp.setTransform (matrixToTransform data),
    CanvasOp.drawImage 0,
    CanvasOp.setTransform (setTransformOf [1, 0, 0, 0, 1, 0, 0, 0, 1])],
   [CanvasOp.clearRect, CanvasOp.drawImage 1])

/-! ### Effect.Stack (src/src/effect.js) -/

/-- An effect is either a terminal effect (an arbitrary transformation of the
target surface taking the relative time) or a Stack holding an ordered list
of sub-effects. -/
inductive Effect (α : Type) where
  | prim (f : α → ℚ → α)
  | stack (effs : List (Effect α))

mutual
/-- Effect apply contract: a terminal effect transforms the target; a Stack
applies each sub-effect to the same target, in list order (Stack.apply). -/
def Effect.apply {α : Type} : Effect α → α → ℚ → α
  | Effect.prim f, t, rt => f t rt
  | Effect.stack effs, t, rt => applyAll effs t rt

/-- The loop body of Stack.apply: each effect sees the previous output. -/
def applyAll {α : Type} : List (Effect α) → α → ℚ → α
  | [], t, _ => t
  | e :: rest, t, rt => applyAll rest (Effect.apply e t rt) rt
end

/-! ### GaussianBlur kernel synthesis (src/src/effect.js) -/

/-- One step of the genPascalRow loop body: from the current row build the
next row, whose edges are 1 and whose interior entry j is
currRow[j-1] + currRow[j]. -/
def pascalNext : List ℚ → List ℚ
  | [] => [1]
  | a :: rest => 1 :: (List.zipWith (· + ·) (a :: rest) rest ++ [1])

/-- The loop of genPascalRow: starting from [1], expand (index - 1) times
(the JS loop runs for i = 1 .. index-1). -/
def genPascalRowAux : ℕ → List ℚ
  | 0 => [1]
  | k + 1 => pascalNext (genPascalRowAux k)

/-- The value genPascalRow computes for a non-negative index. -/
def genPascalRowFun (n : ℕ) : List ℚ :=
  genPascalRowAux (n - 1)

/-- GaussianBlur.genPascalRow: throws Invalid index when index < 0, else
runs the expansion loop starting from [1]. -/
def genPascalRow (index : ℤ) : Except JsError (List ℚ) :=
  if index < 0 then Except.error (JsError.invalidIndex index)
  else Except.ok (genPascalRowFun index.toNat)

/-- The normalization step of gen1DKernel applied to a Pascal row: sum the
entries, then divide each entry by the sum. -/
def normalizeKernel (p : List ℚ) : List ℚ :=
  p.map (fun x => x / p.sum)

/-- The kernel gen1DKernel computes for a non-negative radius. -/
def gen1DKernelFun (r : ℕ) : List ℚ :=
  normalizeKernel (genPascalRowFun (2 * r + 1))

/-- GaussianBlur.gen1DKernel: genPascalRow(2 * radius + 1), then normalize
by the row sum (an exception from genPascalRow propagates). -/
def gen1DKernel (radius : ℤ) : Except JsError (List ℚ) :=
  match genPascalRow (2 * radius + 1) with
  | Except.error e => Except.error e
  | Except.ok p => Except.ok (normalizeKernel p)

/-- Row k of the Pascal triangle: the binomial coefficients choose k j for
j = 0 .. k, as rationals. -/
def binRow (k : ℕ) : List ℚ :=
  (List.range (k + 1)).map (fun j => ((k.choose j : ℕ) : ℚ))

/-! ### Concrete states used by individual claims -/

/-- A playing movie whose first layer has startTime 2 and duration 3; the
second layer keeps the movie duration at 10 so that a tick at clock 5 is a
normal render tick, not the ended branch. -/
def c1Movie : Movie :=
  ⟨[⟨2, 3, false⟩, ⟨0, 10, false⟩], false, false, false, false, false, 0⟩

/-- A playing, non-repeating movie with layers over [0, 3] and [0, 10]. -/
def c2Movie0 : Movie :=
  ⟨[⟨0, 3, false⟩, ⟨0, 10, false⟩], false, false, false, false, false, 0⟩

/-- c2Movie0 after a render tick at clock 1 (both layers start). -/
def c2Movie1 : Movie := (Movie.tick c2Movie0 1).1

/-- c2Movie1 after a render tick at clock 5 (the first layer stops). -/
def c2Movie2 : Movie := (Movie.tick c2Movie1 5).1

/-- The matrix [[1, 0, 1], [0, 1, 0], [0, 0, 1]] (translation by 1 in x). -/
def c3A : Matrix3 := ⟨[1, 0, 1, 0, 1, 0, 0, 0, 1]⟩

/-- The matrix [[2, 0, 0], [0, 1, 0], [0, 0, 1]] (scaling by 2 in x). -/
def c3B : Matrix3 := ⟨[2, 0, 0, 0, 1, 0, 0, 0, 1]⟩

/-- A movie that is not paused, on which record must fail fast. -/
def c6Movie : Movie := ⟨[], false, false, false, false, false, 0⟩

/-- A movie with layers at start 0 duration 5 and start 3 duration 10, the
duration example of the specification. -/
def c7Example : Movie :=
  ⟨[⟨0, 5, false⟩, ⟨3, 10, false⟩], true, false, false, false, false, 0⟩

/-- A movie whose only layer has startTime -10 and duration 2, so that
every per-layer value startTime + duration is negative. -/
def c7Neg : Movie := ⟨[⟨-10, 2, false⟩], true, false, false, false, false, 0⟩

/-- Resolved matrix data for a Transform application: row-major
[[2, 0, 7], [0, 3, 9], [0, 0, 1]]. -/
def c8Data : List ℚ := [2, 0, 7, 0, 3, 9, 0, 0, 1]

/-- A playing movie with one active and one inactive layer, at clock 7. -/
def c10Movie : Movie :=
  ⟨[⟨0, 1, true⟩, ⟨5, 1, false⟩], false, false, false, false, false, 7⟩

/-! ### Helper lemmas -/

/-- Stack.apply unfolds to a left fold of the sub-effect applications. -/
theorem applyAll_eq_foldl {α : Type} :
    ∀ (effs : List (Effect α)) (t : α) (rt : ℚ),
      applyAll effs t rt = effs.foldl (fun acc e => Effect.apply e acc rt) t := by
  intro effs
  induction effs with
  | nil => intro t rt; rfl
  | cons e rest ih =>
      intro t rt
      rw [List.foldl_cons, ← ih]
      rfl

/-- Ticks outside the interval leave an inactive layer silent. -/
theorem traverse_go_out_inactive (s d : ℚ) :
    ∀ (ts : List ℚ) (m n : ℕ),
      (∀ t ∈ ts, outsideInterval ⟨s, d, false⟩ t = true) →
      ts.foldl traverseStep (⟨s, d, false⟩, m, n) = (⟨s, d, false⟩, m, n) := by
  intro ts
  induction ts with
  | nil => intro m n _; rfl
  | cons t rest ih =>
      intro m n h
      rw [List.foldl_cons]
      have hstep : traverseStep ((⟨s, d, false⟩ : Layer), m, n) t
          = ((⟨s, d, false⟩ : Layer), m, n) := by
        simp [traverseStep, renderLayerTick, h t (List.mem_cons_self t rest)]
      rw [hstep]
      exact ih m n (fun x hx => h x (List.mem_cons_of_mem t hx))

/-- Ticks inside the interval leave an active layer silent. -/
theorem traverse_go_in_active (s d : ℚ) :
    ∀ (ts : List ℚ) (m n : ℕ),
      (∀ t ∈ ts, outsideInterval ⟨s, d, true⟩ t = false) →
      ts.foldl traverseStep (⟨s, d, true⟩, m, n) = (⟨s, d, true⟩, m, n) := by
  intro ts
  induction ts with
  | nil => intro m n _; rfl
  | cons t rest ih =>
      intro m n h
      rw [List.foldl_cons]
      have hstep : traverseStep ((⟨s, d, true⟩ : Layer), m, n) t
          = ((⟨s, d, true⟩ : Layer), m, n) := by
        simp [traverseStep, renderLayerTick, h t (List.mem_cons_self t rest)]
      rw [hstep]
      exact ih m n (fun x hx => h x (List.mem_cons_of_mem t hx))

/-- A nonempty run of in-interval ticks starting from an inactive layer
emits exactly one start notification and activates the layer. -/
theorem traverse_go_in_from_inactive (s d : ℚ) :
    ∀ (ts : List ℚ) (m n : ℕ), ts ≠ [] →
      (∀ t ∈ ts, outsideInterval ⟨s, d, false⟩ t = false) →
      ts.foldl traverseStep (⟨s, d, false⟩, m, n) = (⟨s, d, true⟩, m + 1, n) := by
  intro ts
  match ts with
  | [] => intro m n hne _; exact absurd rfl hne
  | t :: rest =>
      intro m n _ h
      rw [List.foldl_cons]
      have hstep : traverseStep ((⟨s, d, false⟩ : Layer), m, n) t
          = ((⟨s, d, true⟩ : Layer), m + 1, n) := by
        simp [traverseStep, renderLayerTick, h t (List.mem_cons_self t rest)]; decide
      rw [hstep]
      exact traverse_go_in_active s d rest (m + 1) n
        (fun x hx => h x (List.mem_cons_of_mem t hx))

/-- A nonempty run of out-of-interval ticks starting from an active layer
emits exactly one stop notification and deactivates the layer. -/
theorem traverse_go_out_from_active (s d : ℚ) :
    ∀ (ts : List ℚ) (m n : ℕ), ts ≠ [] →
      (∀ t ∈ ts, outsideInterval ⟨s, d, true⟩ t = true) →
      ts.foldl traverseStep (⟨s, d, true⟩, m, n) = (⟨s, d, false⟩, m, n + 1) := by
  intro ts
  match ts with
  | [] => intro m n hne _; exact absurd rfl hne
  | t :: rest =>
      intro m n _ h
      rw [List.foldl_cons]
      have hstep : traverseStep ((⟨s, d, true⟩ : Layer), m, n) t
          = ((⟨s, d, false⟩ : Layer), m, n + 1) := by
        simp [traverseStep, renderLayerTick, h t (List.mem_cons_self t rest)]; decide
      rw [hstep]
      exact traverse_go_out_inactive s d rest m (n + 1)
        (fun x hx => h x (List.mem_cons_of_mem t hx))

/-! ### Claims -/

/-- C1 (code_bug evidence): the bounds test of Movie._renderLayers uses a
strict greater-than, so at movie clock 5 a layer with startTime 2 and
duration 3 is activated (closed interval), although 5 is not in the
half-open interval the specification demands: after a normal render tick of
c1Movie at clock 5, the layer is active, the per-layer step emits a start
notification, and yet 5 < 2 + 3 fails. -/
theorem C1_closed_interval_code_eval :
    ((Movie.tick c1Movie 5).1.layers.getD 0 ⟨0, 0, false⟩).active = true ∧
    (renderLayerTick 5 ⟨2, 3, false⟩).2 = [Notif.start] ∧
    ¬((5 : ℚ) < 2 + 3) := by
  refine ⟨?_, ?_, by norm_num⟩
  · norm_num [c1Movie, Movie.tick, Movie.duration, renderLayerTick, outsideInterval]
  · norm_num [renderLayerTick, outsideInterval]

/-- C6: calling record on a movie that is not paused throws the
precondition violation before any mutation: the state is returned
unchanged, in particular the output surface is not swapped and no recorder
is attached. -/
theorem C6_record_requires_paused :
    ∀ m : Movie, m.paused = false →
      (Movie.record m).1 = m ∧
      (Movie.record m).2 = Except.error JsError.cannotRecord ∧
      (Movie.record m).1.usingCaptureSurface = m.usingCaptureSurface ∧
      (Movie.record m).1.recorderAttached = m.recorderAttached := by
  intro m h
  refine ⟨?_, ?_, ?_, ?_⟩ <;> simp [Movie.record, h]

/-- Witness for C6 at a concrete playing movie. -/
theorem C6_record_requires_paused_witness :
    (Movie.record c6Movie).1 = c6Movie ∧
    (Movie.record c6Movie).2 = Except.error JsError.cannotRecord ∧
    (Movie.record c6Movie).1.usingCaptureSurface = c6Movie.usingCaptureSurface ∧
    (Movie.record c6Movie).1.recorderAttached = c6Movie.recorderAttached :=
  C6_record_requires_paused c6Movie rfl

/-- C9: a Stack of two effects applied to a target produces exactly the
state obtained by applying the first effect and then the second to the same
target; in general Stack.apply folds the sub-effect applications over the
target in list order, each seeing the previous output. -/
theorem C9_stack_sequential :
    (∀ (α : Type) (ea eb : Effect α) (t : α) (rt : ℚ),
       Effect.apply (Effect.stack [ea, eb]) t rt
         = Effect.apply eb (Effect.apply ea t rt) rt) ∧
    (∀ (α : Type) (effs : List (Effect α)) (t : α) (rt : ℚ),
       Effect.apply (Effect.stack effs) t rt
         = effs.foldl (fun acc e => Effect.apply e acc rt) t) := by
  constructor
  · intro α ea eb t rt
    rfl
  · intro α effs t rt
    rw [Effect.apply, applyAll_eq_foldl]

/-- C10: Movie.pause publishes a stop notification to every layer in the
list — including layers whose active flag is already false — after which
every active flag is false, the paused flag is set, and currentTime is
untouched. -/
theorem C10_pause_stops_every_layer :
    ∀ m : Movie,
      (Movie.pause m).2 = m.layers.map (fun _ => [Notif.stop]) ∧
      (∀ l ∈ (Movie.pause m).1.layers, l.active = false) ∧
      (Movie.pause m).1.currentTime = m.currentTime ∧
      (Movie.pause m).1.paused = true := by
  intro m
  refine ⟨rfl, ?_, rfl, rfl⟩
  intro l hl
  simp only [Movie.pause, List.mem_map] at hl
  obtain ⟨x, _, rfl⟩ := hl
  rfl

/-- Witness for C10 at a concrete movie with one active and one inactive
layer: both receive exactly one stop, and the clock stays at 7. -/
theorem C10_pause_stops_every_layer_witness :
    (Movie.pause c10Movie).2 = [[Notif.stop], [Notif.stop]] ∧
    (Movie.pause c10Movie).1.currentTime = 7 ∧
    ((Movie.pause c10Movie).1.layers.getD 0 ⟨0, 0, true⟩).active = false := by
  refine ⟨?_, (C10_pause_stops_every_layer c10Movie).2.2.1, ?_⟩
  · rw [(C10_pause_stops_every_layer c10Movie).1]
    rfl
  · exact (C10_pause_stops_every_layer c10Movie).2.1 _ (by simp [Movie.pause, c10Movie])

/-- C2 (amended): over interval-driven render ticks, a layer notification
fires only on a transition.  First part: for any single continuous traversal
of the interval — ticks outside, then at least one tick inside, then at
least one tick outside — a layer that starts inactive receives exactly one
start and exactly one stop notification and ends inactive, regardless of
tick granularity.  Second part: within Movie._renderLayers no start is
emitted while the layer is already active and no stop while it is already
inactive.  (The ended branch of Movie._render and Movie.pause additionally
publish stop to every layer unconditionally, so a layer can receive a stop
on a tick where it is already inactive; see the counterexample.) -/
theorem C2_one_start_one_stop_per_traversal :
    (∀ (s d : ℚ) (pre ins post : List ℚ),
       (∀ t ∈ pre, outsideInterval ⟨s, d, false⟩ t = true) →
       (∀ t ∈ ins, outsideInterval ⟨s, d, false⟩ t = false) →
       (∀ t ∈ post, outsideInterval ⟨s, d, false⟩ t = true) →
       ins ≠ [] → post ≠ [] →
       traverse ⟨s, d, false⟩ (pre ++ ins ++ post) = (⟨s, d, false⟩, 1, 1)) ∧
    (∀ (l : Layer) (t : ℚ),
       (l.active = true → (renderLayerTick t l).2.count Notif.start = 0) ∧
       (l.active = false → (renderLayerTick t l).2.count Notif.stop = 0)) := by
  constructor
  · intro s d pre ins post hpre hins hpost hins0 hpost0
    unfold traverse
    rw [List.foldl_append, List.foldl_append]
    rw [traverse_go_out_inactive s d pre 0 0 hpre]
    rw [traverse_go_in_from_inactive s d ins 0 0 hins0 hins]
    exact traverse_go_out_from_active s d post 1 0 hpost0 hpost
  · intro l t
    constructor
    · intro h
      by_cases ho : outsideInterval l t <;>
        simp [renderLayerTick, h, ho, List.count_cons]; decide
    · intro h
      by_cases ho : outsideInterval l t <;>
        simp [renderLayerTick, h, ho, List.count_cons]; decide

/-- Witness for C2 at startTime 2, duration 3 and ticks 0; 2, 3; 6. -/
theorem C2_one_start_one_stop_per_traversal_witness :
    traverse ⟨2, 3, false⟩ ([0] ++ [2, 3] ++ [6]) = (⟨2, 3, false⟩, 1, 1) :=
  C2_one_start_one_stop_per_traversal.1 2 3 [0] [2, 3] [6]
    (by intro t ht; simp at ht; subst ht; norm_num [outsideInterval])
    (by
      intro t ht
      simp only [List.mem_cons, List.not_mem_nil, or_false] at ht
      rcases ht with rfl | rfl <;> norm_num [outsideInterval])
    (by intro t ht; simp at ht; subst ht; norm_num [outsideInterval])
    (by simp) (by simp)

/-- C2 (counterexample to the claim as stated): in the movie c2Movie2 the
first layer (interval [0, 3]) is already inactive, yet the ended branch of
the render tick at clock 10 publishes a further stop notification to it —
a notification on a tick where the layer is already inactive, and a second
stop for a traversal that already ended at clock 5. -/
theorem C2_counterexample :
    (c2Movie2.layers.getD 0 ⟨0, 0, false⟩).active = false ∧
    (Movie.tick c2Movie2 10).2.getD 0 [] = [Notif.stop] := by
  constructor
  · norm_num [c2Movie2, c2Movie1, c2Movie0, Movie.tick, Movie.duration,
      renderLayerTick, outsideInterval]
  · norm_num [c2Movie2, c2Movie1, c2Movie0, Movie.tick, Movie.duration,
      renderLayerTick, outsideInterval]

/-- C3 (counterexample): with A the unit x-translation and B the x-scaling
by 2, A.multiply(B) does not equal the row-major product A x B: the code
leaves entry (row 0, col 2) = 2, while the claimed product has 1 there. -/
theorem C3_counterexample :
    Matrix3.multiply c3A c3B ≠ Matrix3.specMultiply c3A c3B ∧
    (Matrix3.multiply c3A c3B).cell 2 0 = 2 ∧
    (Matrix3.specMultiply c3A c3B).cell 2 0 = 1 := by
  refine ⟨?_, ?_, ?_⟩ <;>
    simp [c3A, c3B, Matrix3.multiply, Matrix3.specMultiply, Matrix3.mulCell,
      Matrix3.specMulCell, Matrix3.cell]

/-- C3 (amended): A.multiply(B) leaves A equal to the row-major product
B x A computed from the pre-call values — that is, exactly specMultiply
with the operand roles swapped, so the entry at row r, column c is the sum
over i of B[r][i] * A[i][c]. -/
theorem C3_multiply_is_swapped_product :
    ∀ a b : Matrix3, Matrix3.multiply a b = Matrix3.specMultiply b a := by
  intro a b
  simp only [Matrix3.multiply, Matrix3.specMultiply, Matrix3.mulCell,
    Matrix3.specMulCell, Matrix3.mk.injEq, List.cons.injEq, and_true]
  refine ⟨by ring, by ring, by ring, by ring, by ring, by ring, by ring,
    by ring, by ring⟩

/-- C8 (code_bug evidence): the trace of Transform.apply on the resolved
matrix [[2,0,7],[0,3,9],[0,0,1]]: the scratch context receives the matrix
as its transform and draws the target, but the reset call — written with
the nine row-major arguments (1,0,0,0,1,0,0,0,1) of which the 2-D context
consumes only the first six — sets (a,b,c,d,e,f) = (1,0,0,0,1,0), a
singular transform, not the identity (1,0,0,1,0,0); the target is then
cleared and receives the scratch contents. -/
theorem C8_reset_is_not_identity :
    transformApplyOps c8Data =
      ([CanvasOp.setTransform ⟨2, 0, 0, 3, 7, 9⟩,
        CanvasOp.drawImage 0,
        CanvasOp.setTransform ⟨1, 0, 0, 0, 1, 0⟩],
       [CanvasOp.clearRect, CanvasOp.drawImage 1]) ∧
    setTransformOf [1, 0, 0, 0, 1, 0, 0, 0, 1] ≠ identityTransform := by
  constructor
  · rfl
  · intro hcontra
    have : (0 : ℚ) = 1 := congrArg Transform2D.d hcontra
    norm_num at this

/-- The duration fold never goes below its initial accumulator. -/
theorem durFold_init_le :
    ∀ (ls : List Layer) (a : ℚ),
      a ≤ ls.foldl (fun e l => max (l.startTime + l.duration) e) a := by
  intro ls
  induction ls with
  | nil => intro a; exact le_refl a
  | cons l rest ih =>
      intro a
      rw [List.foldl_cons]
      exact le_trans (le_max_right _ a) (ih _)

/-- Every layer of the list is bounded by the duration fold. -/
theorem durFold_mem_le :
    ∀ (ls : List Layer) (a : ℚ) (l : Layer), l ∈ ls →
      l.startTime + l.duration
        ≤ ls.foldl (fun e l => max (l.startTime + l.duration) e) a := by
  intro ls
  induction ls with
  | nil => intro a l hl; exact absurd hl (List.not_mem_nil l)
  | cons x rest ih =>
      intro a l hl
      rw [List.foldl_cons]
      rcases List.mem_cons.mp hl with rfl | hmem
      · exact le_trans (le_max_left _ a) (durFold_init_le rest _)
      · exact ih _ l hmem

/-- The duration fold returns its initial accumulator or one of the
per-layer values. -/
theorem durFold_cases :
    ∀ (ls : List Layer) (a : ℚ),
      ls.foldl (fun e l => max (l.startTime + l.duration) e) a = a ∨
      ∃ l ∈ ls, ls.foldl (fun e l => max (l.startTime + l.duration) e) a
        = l.startTime + l.duration := by
  intro ls
  induction ls with
  | nil => intro a; exact Or.inl rfl
  | cons x rest ih =>
      intro a
      rw [List.foldl_cons]
      rcases ih (max (x.startTime + x.duration) a) with h | ⟨l, hl, h⟩
      · rcases le_total (x.startTime + x.duration) a with hle | hle
        · left; rw [h]; exact max_eq_right hle
        · right
          exact ⟨x, List.mem_cons_self x rest, by rw [h]; exact max_eq_left hle⟩
      · exact Or.inr ⟨l, List.mem_cons_of_mem x hl, h⟩

/-- C7 (amended): reading duration returns the maximum of 0 and the
per-layer values startTime + duration (the getter folds max over the
current layer list with initial value 0): it is non-negative, bounds every
layer, and is either 0 or attained by some layer; it tracks layer-list
updates (addLayer) because it is recomputed from the list at each read; and
the movie with layers at start 0 duration 5 and start 3 duration 10
reports 13. -/
theorem C7_duration_max_with_zero_floor :
    (∀ m : Movie,
       0 ≤ Movie.duration m ∧
       (∀ l ∈ m.layers, l.startTime + l.duration ≤ Movie.duration m) ∧
       (Movie.duration m = 0 ∨
         ∃ l ∈ m.layers, Movie.duration m = l.startTime + l.duration)) ∧
    (∀ (m : Movie) (l : Layer),
       Movie.duration (Movie.addLayer m l)
         = max (l.startTime + l.duration) (Movie.duration m)) ∧
    Movie.duration c7Example = 13 := by
  refine ⟨?_, ?_, ?_⟩
  · intro m
    exact ⟨durFold_init_le m.layers 0,
      fun l hl => durFold_mem_le m.layers 0 l hl,
      durFold_cases m.layers 0⟩
  · intro m l
    unfold Movie.duration Movie.addLayer
    rw [List.foldl_append, List.foldl_cons, List.foldl_nil]
  · norm_num [c7Example, Movie.duration]

/-- Witness for C7: the spec example layer start 3 duration 10 is a member
and is bounded by the computed duration. -/
theorem C7_duration_max_with_zero_floor_witness :
    (3 : ℚ) + 10 ≤ Movie.duration c7Example :=
  (C7_duration_max_with_zero_floor.1 c7Example).2.1 ⟨3, 10, false⟩
    (by simp [c7Example])

/-- C7 (counterexample to the claim as stated): the movie whose only layer
has startTime -10 and duration 2 reports duration 0, but the maximum over
its layers of startTime + duration is -8 — the fold starts at 0, so the
getter floors the result at 0 rather than returning the plain maximum. -/
theorem C7_counterexample :
    Movie.duration c7Neg = 0 ∧
    c7Neg.layers = [⟨-10, 2, false⟩] ∧
    (-10 : ℚ) + 2 ≠ 0 := by
  refine ⟨?_, rfl, by norm_num⟩
  norm_num [c7Neg, Movie.duration]

/-- zipWith of addition where the first list carries one extra trailing
element: the tail is dropped and the addition acts pointwise. -/
theorem zipWith_add_map_snoc (f g : ℕ → ℚ) :
    ∀ (l : List ℕ) (x : ℚ),
      List.zipWith (· + ·) (l.map f ++ [x]) (l.map g)
        = l.map (fun j => f j + g j) := by
  intro l
  induction l with
  | nil => intro x; rfl
  | cons a t ih =>
      intro x
      simp only [List.map_cons, List.cons_append, List.zipWith_cons_cons, ih]

/-- Pascal row k viewed with its head peeled off. -/
theorem binRow_eq_cons (k : ℕ) :
    binRow k = (1 : ℚ) :: (List.range k).map (fun j => ((k.choose (j+1) : ℕ) : ℚ)) := by
  unfold binRow
  rw [List.range_succ_eq_map, List.map_cons, List.map_map]
  simp [Function.comp_def, Nat.succ_eq_add_one]

/-- Pascal row k viewed with its last element peeled off. -/
theorem binRow_eq_snoc (k : ℕ) :
    binRow k
      = (List.range k).map (fun j => ((k.choose j : ℕ) : ℚ)) ++ [((k.choose k : ℕ) : ℚ)] := by
  unfold binRow
  rw [List.range_succ, List.map_append]
  rfl

/-- One expansion step of the genPascalRow loop turns Pascal row k into
Pascal row k + 1. -/
theorem pascalNext_binRow (k : ℕ) : pascalNext (binRow k) = binRow (k + 1) := by
  rw [binRow_eq_cons k]
  simp only [pascalNext]
  rw [← binRow_eq_cons k, binRow_eq_snoc k, zipWith_add_map_snoc]
  rw [binRow_eq_cons (k + 1), List.range_succ, List.map_append]
  simp only [List.map_cons, List.map_nil, Nat.choose_self, Nat.cast_one, List.cons.injEq,
    true_and]
  show List.map (fun j => ((k.choose j : ℕ) : ℚ) + ((k.choose (j+1) : ℕ) : ℚ)) (List.range k)
        ++ [(1 : ℚ)]
      = List.map (fun j => (((k+1).choose (j+1) : ℕ) : ℚ)) (List.range k) ++ [(1 : ℚ)]
  refine congrArg (fun l => l ++ [(1 : ℚ)]) ?_
  refine List.map_congr_left ?_
  intro j _
  rw [Nat.choose_succ_succ]
  push_cast
  ring

/-- The genPascalRow loop computes the Pascal rows. -/
theorem genPascalRowAux_eq_binRow : ∀ k : ℕ, genPascalRowAux k = binRow k := by
  intro k
  induction k with
  | zero => simp [genPascalRowAux, binRow, List.range_succ]
  | succ k ih => rw [genPascalRowAux, ih, pascalNext_binRow]

/-- Pascal row k has k + 1 entries. -/
theorem binRow_length (k : ℕ) : (binRow k).length = k + 1 := by
  simp [binRow]

/-- Entry i of Pascal row k is choose k i. -/
theorem binRow_getD (k i : ℕ) (h : i ≤ k) :
    (binRow k).getD i 0 = ((k.choose i : ℕ) : ℚ) := by
  unfold binRow
  rw [List.getD_eq_getElem _ _ (by simpa using Nat.lt_succ_of_le h)]
  simp

/-- A list sum over a mapped range is the corresponding finite sum. -/
theorem list_range_map_sum (f : ℕ → ℚ) :
    ∀ n : ℕ, ((List.range n).map f).sum = ∑ i ∈ Finset.range n, f i := by
  intro n
  induction n with
  | zero => rfl
  | succ n ih =>
      rw [List.range_succ, List.map_append, List.sum_append, Finset.sum_range_succ, ih]
      simp

/-- Pascal row k sums to 2 ^ k. -/
theorem binRow_sum (k : ℕ) : (binRow k).sum = 2 ^ k := by
  unfold binRow
  rw [list_range_map_sum]
  rw [← Nat.cast_sum, Nat.sum_range_choose]
  push_cast
  rfl

/-- Dividing every entry of a list divides its sum. -/
theorem sum_map_div (c : ℚ) :
    ∀ l : List ℚ, (l.map (fun x => x / c)).sum = l.sum / c := by
  intro l
  induction l with
  | nil => simp
  | cons a t ih => rw [List.map_cons, List.sum_cons, List.sum_cons, ih, add_div]

/-- Entry access through the normalization map. -/
theorem getD_map_div (l : List ℚ) (c : ℚ) (i : ℕ) (h : i < l.length) :
    (l.map (fun x => x / c)).getD i 0 = l.getD i 0 / c := by
  rw [List.getD_eq_getElem _ _ (by simpa using h), List.getD_eq_getElem _ _ h,
    List.getElem_map]

/-- The Pascal row underlying the kernel of radius r is Pascal row 2r. -/
theorem genPascalRowFun_kernel (r : ℕ) :
    genPascalRowFun (2 * r + 1) = binRow (2 * r) := by
  unfold genPascalRowFun
  rw [Nat.add_sub_cancel, genPascalRowAux_eq_binRow]

/-- C4: for every integer radius at least 0, gen1DKernel succeeds and the
kernel it returns has length 2 * radius + 1, only non-negative entries, sum
exactly 1 over rational arithmetic, and is symmetric: entry i equals entry
(length - 1) - i = 2 * radius - i for every valid index. -/
theorem C4_kernel_normalized_symmetric :
    ∀ r : ℕ,
      gen1DKernel (r : ℤ) = Except.ok (gen1DKernelFun r) ∧
      (gen1DKernelFun r).length = 2 * r + 1 ∧
      (∀ x ∈ gen1DKernelFun r, 0 ≤ x) ∧
      (gen1DKernelFun r).sum = 1 ∧
      (∀ i, i < 2 * r + 1 →
        (gen1DKernelFun r).getD i 0 = (gen1DKernelFun r).getD (2 * r - i) 0) := by
  intro r
  have hneg : ¬((2 * (r : ℤ) + 1) < 0) := by omega
  have htoNat : (2 * (r : ℤ) + 1).toNat = 2 * r + 1 := by omega
  have hker : gen1DKernelFun r = normalizeKernel (binRow (2 * r)) := by
    rw [gen1DKernelFun, genPascalRowFun_kernel]
  have hsum : (binRow (2 * r)).sum = 2 ^ (2 * r) := binRow_sum (2 * r)
  refine ⟨?_, ?_, ?_, ?_, ?_⟩
  · rw [gen1DKernel, genPascalRow, if_neg hneg, htoNat]
    rfl
  · rw [hker, normalizeKernel, List.length_map, binRow_length]
  · intro x hx
    rw [hker, normalizeKernel] at hx
    obtain ⟨y, hy, rfl⟩ := List.mem_map.mp hx
    obtain ⟨j, _, rfl⟩ := List.mem_map.mp hy
    rw [hsum]
    positivity
  · rw [hker, normalizeKernel, sum_map_div, hsum, div_self (by positivity)]
  · intro i hi
    have hi2 : i ≤ 2 * r := Nat.lt_succ_iff.mp hi
    rw [hker, normalizeKernel]
    rw [getD_map_div _ _ _ (by rw [binRow_length]; omega),
      getD_map_div _ _ _ (by rw [binRow_length]; omega)]
    rw [binRow_getD _ _ hi2, binRow_getD _ _ (by omega)]
    rw [Nat.choose_symm hi2]

/-- Witness for C4 at radius 1: the call succeeds and the outer entries of
the kernel of length 3 agree. -/
theorem C4_kernel_normalized_symmetric_witness :
    gen1DKernel ((1 : ℕ) : ℤ) = Except.ok (gen1DKernelFun 1) ∧
    (gen1DKernelFun 1).getD 0 0 = (gen1DKernelFun 1).getD (2 * 1 - 0) 0 :=
  ⟨(C4_kernel_normalized_symmetric 1).1,
   (C4_kernel_normalized_symmetric 1).2.2.2.2 0 (by norm_num)⟩

/-- C5 (amended): genPascalRow fails with the InvalidArgument condition
exactly when the requested index is negative; for index n at least 0 it
returns Pascal row (n - 1) of the triangle (for n at least 1 this row has
length exactly n); for n = 0 it returns [1] — length 1, not an empty row.
The returned rows have edge entries 1 and every interior entry is the sum
of the two entries above it in the previous row. -/
theorem C5_pascal_row_and_negative_index :
    (∀ n : ℤ, n < 0 → genPascalRow n = Except.error (JsError.invalidIndex n)) ∧
    (∀ n : ℤ, 0 ≤ n → genPascalRow n = Except.ok (binRow (n.toNat - 1))) ∧
    (∀ n : ℤ, 1 ≤ n → (binRow (n.toNat - 1)).length = n.toNat) ∧
    genPascalRow 0 = Except.ok [1] ∧
    (∀ k : ℕ, (binRow k).getD 0 0 = 1 ∧ (binRow k).getD k 0 = 1) ∧
    (∀ k j : ℕ, j < k →
      (binRow (k + 1)).getD (j + 1) 0
        = (binRow k).getD j 0 + (binRow k).getD (j + 1) 0) := by
  refine ⟨?_, ?_, ?_, ?_, ?_, ?_⟩
  · intro n hn
    rw [genPascalRow, if_pos hn]
  · intro n hn
    rw [genPascalRow, if_neg (by omega), genPascalRowFun, genPascalRowAux_eq_binRow]
  · intro n hn
    rw [binRow_length]
    omega
  · rw [genPascalRow, if_neg (by omega)]
    have : genPascalRowFun ((0 : ℤ)).toNat = [1] := rfl
    rw [this]
  · intro k
    constructor
    · rw [binRow_getD k 0 (Nat.zero_le k), Nat.choose_zero_right, Nat.cast_one]
    · rw [binRow_getD k k (le_refl k), Nat.choose_self, Nat.cast_one]
  · intro k j hj
    rw [binRow_getD (k + 1) (j + 1) (by omega), binRow_getD k j (by omega),
      binRow_getD k (j + 1) (by omega), Nat.choose_succ_succ]
    push_cast
    ring

/-- Witness for C5: a negative index fails, index 3 yields Pascal row 2 of
length 3. -/
theorem C5_pascal_row_and_negative_index_witness :
    genPascalRow (-1) = Except.error (JsError.invalidIndex (-1)) ∧
    genPascalRow 3 = Except.ok (binRow 2) ∧
    (binRow 2).length = 3 :=
  ⟨C5_pascal_row_and_negative_index.1 (-1) (by norm_num),
   C5_pascal_row_and_negative_index.2.1 3 (by norm_num),
   C5_pascal_row_and_negative_index.2.2.1 3 (by norm_num)⟩

/-- C5 (counterexample to the claim as stated): for n = 0 the code does not
return the Pascal row of length 0 — it returns [1], of length 1. -/
theorem C5_counterexample :
    genPascalRow 0 = Except.ok [(1 : ℚ)] ∧ ([(1 : ℚ)].length ≠ 0) := by
  constructor
  · rw [genPascalRow, if_neg (by omega)]
    rfl
  · simp

end Vidar
